import Mathlib

/-!
# Verification of the Generation–Validation–Correction loop (VATA)

Shallow embedding of the loop mechanics of the VATA repository:
the subprocess runners (`selfhealingcode.run_code_and_get_logs`,
`codefixer.ManimRunner.run`, `agno_pipeline.validate_manim_code`,
`render_manim.render_manim_video`), the stderr diagnostic filters,
the structured-response recovery parser (`agno_agents.parse_manim_code`),
the backoff delay computations (`dspy_manim_workflow1._retry_with_backoff`,
`codefixer.FixAgent.fix_code`) and the three correction-loop variants
(`selfhealingcode` module loop, `agno_pipeline.main`,
`codefixer.CodeFixCoordinator.start`).

Python strings are modelled as `List Char`; machine integers returned by
the operating system (process exit codes) as `Int`.  The external world
(the subprocess layer, the generation service) is modelled by explicit
outcome values / oracle streams fed to the embedded functions, so every
embedded function is a total computable Lean function.
-/

namespace VATA

/-! ## String primitives (models of the Python `str` operations used) -/

/-- Model of Python's `str.strip()` whitespace set (ASCII whitespace). -/
def isPyWS (c : Char) : Bool :=
  c = ' ' || c = '\t' || c = '\n' || c = '\r' || c = '\x0b' || c = '\x0c'

/-- Model of Python `s.strip()`: drop whitespace from both ends. -/
def pstrip (s : List Char) : List Char :=
  ((s.dropWhile isPyWS).reverse.dropWhile isPyWS).reverse

/-- Model of Python `needle in hay` (substring containment). -/
def strContains (hay needle : List Char) : Bool :=
  if needle.isPrefixOf hay then true
  else
    match hay with
    | [] => false
    | _ :: t => strContains t needle

/-- Model of Python `s.split(sep)` for a one-character separator. -/
def psplit (s : List Char) (sep : Char) : List (List Char) :=
  s.splitOn sep

/-- Model of Python `sep.join(lines)` for separator `'\n'`. -/
def joinNL (lines : List (List Char)) : List Char :=
  List.intercalate ['\n'] lines

/-- Model of Python `s[-n:]`: the last `n` characters (all of `s` when
`s` is shorter). -/
def lastChars (n : Nat) (s : List Char) : List Char :=
  s.drop (s.length - n)

/-- Model of Python `s.replace(old, new)` (all non-overlapping
occurrences, left to right), fuel-driven; `old` is nonempty at every
call site, and the initial fuel `s.length` suffices. -/
def replaceSubAux (old new : List Char) : Nat → List Char → List Char
  | 0, s => s
  | _ + 1, [] => []
  | fuel + 1, c :: t =>
    if old ≠ [] ∧ old.isPrefixOf (c :: t) then
      new ++ replaceSubAux old new fuel ((c :: t).drop old.length)
    else
      c :: replaceSubAux old new fuel t

/-- Model of Python `s.replace(old, new)`. -/
def replaceSub (s old new : List Char) : List Char :=
  replaceSubAux old new s.length s

/-! ## Sandbox executor outcomes

A `subprocess.run` call either completes (yielding a numeric exit code
and both captured streams), is killed on timeout
(`subprocess.TimeoutExpired`), or fails to spawn / raises some other
exception carrying a message (`FileNotFoundError` when the `manim` tool
is absent, caught by the generic `except Exception` handlers). -/

inductive SubprocOutcome where
  | completed (returncode : Int) (stdout stderr : List Char)
  | timedOut
  | spawnFailure (msg : List Char)
deriving DecidableEq, Repr

/-! ## Diagnostic classifier (stderr filtering)

`selfhealingcode.run_code_and_get_logs` lines 30–62 and
`agno_pipeline.validate_manim_code` lines 77–110 share the same shape:
split stderr on newlines, strip each line, drop empty lines, drop lines
containing a benign substring (checked FIRST), keep lines containing an
error indicator. -/

/-- Benign substring list of `selfhealingcode.run_code_and_get_logs`. -/
def benign_selfhealing : List (List Char) :=
  [ "UserWarning: pkg_resources is deprecated".toList,
    "WARNING: All log messages before absl::InitializeLog()".toList,
    "ALTS creds ignored".toList,
    "import pkg_resources".toList,
    "manim_voiceover/__init__.py".toList,
    "INFO     Caching disabled".toList,
    "INFO     Animation".toList,
    "INFO     Automatically converted".toList ]

/-- Benign substring list of `agno_pipeline.validate_manim_code` (the
same list plus the `GOOGLE_API_KEY`/`GEMINI_API_KEY` notice). -/
def benign_agno : List (List Char) :=
  benign_selfhealing ++ ["Both GOOGLE_API_KEY and GEMINI_API_KEY are set".toList]

/-- Error indicator list (identical in both classifiers). -/
def error_indicators : List (List Char) :=
  [ "Error".toList, "Exception".toList, "Traceback".toList, "File \"".toList,
    "NameError".toList, "TypeError".toList, "ValueError".toList,
    "ImportError".toList, "AttributeError".toList, "SyntaxError".toList,
    "IndentationError".toList, "KeyError".toList, "IndexError".toList,
    "RuntimeError".toList ]

/-- The shared stderr filtering loop: the list `error_lines` built by the
`for line in stderr_text.split('\n')` loop. -/
def filter_error_lines (benign : List (List Char)) (stderrText : List Char) :
    List (List Char) :=
  ((psplit stderrText '\n').map pstrip).filter fun line =>
    line ≠ [] &&
    !(benign.any fun w => strContains line w) &&
    (error_indicators.any fun ind => strContains line ind)

/-! ## `selfhealingcode.run_code_and_get_logs` -/

/-- The result dictionary returned by `run_code_and_get_logs`.
`return_code` is kept as `Option Int` to express the spec's
"integer | absent" field type; the source populates it in every branch. -/
structure RunLog where
  stdout : List Char
  stderr : List Char
  errors : List Char
  return_code : Option Int
deriving DecidableEq, Repr

/-- Fixed message of the `subprocess.TimeoutExpired` branch. -/
def sh_timeout_msg : List Char :=
  "Timeout: Process took longer than 60 seconds".toList

/-- Embedding of `selfhealingcode.run_code_and_get_logs` (lines 16–83) as a
function of the subprocess outcome. -/
def run_code_and_get_logs (out : SubprocOutcome) : RunLog :=
  match out with
  | .completed rc stdout stderr =>
      let errs := joinNL (filter_error_lines benign_selfhealing stderr)
      { stdout := stdout, stderr := stderr,
        errors := if pstrip errs ≠ [] then errs else [],
        return_code := some rc }
  | .timedOut =>
      { stdout := [], stderr := sh_timeout_msg, errors := sh_timeout_msg,
        return_code := some 1 }
  | .spawnFailure msg =>
      { stdout := [], stderr := msg, errors := msg, return_code := some 1 }

/-! ## `agno_pipeline.validate_manim_code`

Embedded on the path where the candidate file exists; the subprocess
outcome is the explicit argument.  Returns the `(success, error_message)`
pair. -/

/-- Embedding of `agno_pipeline.validate_manim_code` (lines 54–122). -/
def validate_manim_code (out : SubprocOutcome) : Bool × List Char :=
  match out with
  | .completed rc _ stderr =>
      if rc = 0 then (true, [])
      else
        let errs := joinNL (filter_error_lines benign_agno stderr)
        let errs := if pstrip errs = [] then lastChars 500 stderr else errs
        (false, errs)
  | .timedOut => (false, "Validation timed out after 60 seconds".toList)
  | .spawnFailure msg => (false, "Validation error: ".toList ++ msg)

/-! ## `codefixer.ManimRunner.run` -/

/-- The `{"success": ..., "logs": ...}` dictionary of `ManimRunner.run`. -/
structure RunnerResult where
  success : Bool
  logs : List Char
deriving DecidableEq, Repr

/-- Embedding of `codefixer.ManimRunner.run` (lines 21–39). -/
def ManimRunner_run (out : SubprocOutcome) : RunnerResult :=
  match out with
  | .completed rc stdout stderr =>
      if rc = 0 then { success := true, logs := stdout }
      else { success := false, logs := stderr }
  | .timedOut => { success := false, logs := "Execution timed out.".toList }
  | .spawnFailure msg => { success := false, logs := msg }

/-! ## Correction requests

`selfhealingcode` line 141 builds the correction call input as
`{"code": code, "logs": logs}` where `logs` is the WHOLE dictionary
returned by `run_code_and_get_logs` (raw `stdout` and `stderr`
included).  `agno_pipeline.main` lines 237–264 interpolates the full
prior code and `error_msg[:1000]` into the feedback prompt. -/

/-- The data interpolated into the `selfhealingcode` correction prompt
(`correction_chain.invoke` argument, line 141). -/
structure SHCorrectionRequest where
  code : List Char
  logs : RunLog
deriving DecidableEq, Repr

/-- Embedding of the `correction_chain.invoke` argument built in the
`selfhealingcode` retry loop (line 141). -/
def sh_correction_request (code : List Char) (logs : RunLog) :
    SHCorrectionRequest :=
  { code := code, logs := logs }

/-- The data interpolated into the `agno_pipeline.main` error-feedback
prompt (lines 237–264): the full prior code and the first 1000
characters of the validation error message. -/
structure AgnoCorrectionRequest where
  prior_code : List Char
  error_excerpt : List Char
deriving DecidableEq, Repr

/-- Embedding of the feedback-prompt construction of
`agno_pipeline.main` (lines 237–264): `manim_code_obj.code` in full and
`error_msg[:1000]`. -/
def agno_correction_request (code errorMsg : List Char) :
    AgnoCorrectionRequest :=
  { prior_code := code, error_excerpt := errorMsg.take 1000 }

/-! ## The `selfhealingcode` retry loop (lines 127–147)

`for attempt in range(MAX_RETRIES)`: run the file, break on success
(`not logs["errors"] and logs.get("return_code", 1) == 0`), otherwise
invoke the correction chain and overwrite the file.  The external world
is an oracle stream `execs : Nat → SubprocOutcome` giving the subprocess
outcome of each attempt (the effect of each correction is folded into
the stream). -/

/-- `MAX_RETRIES` of `selfhealingcode` (line 127). -/
def SH_MAX_RETRIES : Nat := 10

/-- The loop's success test (line 133). -/
def sh_success (logs : RunLog) : Bool :=
  logs.errors = [] && logs.return_code = some 0

/-- One loop decision: after a failed run the loop always issues a
correction request (there is no abort path). -/
inductive SHDecision where
  | succeed
  | correct
deriving DecidableEq, Repr

/-- The decision the `selfhealingcode` loop body takes on a run result:
break on success, otherwise build a correction request. -/
def sh_decision (logs : RunLog) : SHDecision :=
  if sh_success logs then .succeed else .correct

/-- Terminal states of the `selfhealingcode` loop: the `break` on
success or the `for`-`else` exhaustion message. -/
inductive SHOutcome where
  | success
  | exhausted
deriving DecidableEq, Repr

/-- Embedding of the `selfhealingcode` retry loop: `attempt` is the
current loop index, `remaining` the number of iterations the `range`
still provides.  Returns the outcome together with the number of
sandbox-executor invocations performed. -/
def sh_loop (execs : Nat → SubprocOutcome) : Nat → Nat → SHOutcome × Nat
  | _, 0 => (.exhausted, 0)
  | attempt, remaining + 1 =>
    let logs := run_code_and_get_logs (execs attempt)
    if sh_success logs then (.success, 1)
    else
      let r := sh_loop execs (attempt + 1) remaining
      (r.1, r.2 + 1)

/-- The whole `for attempt in range(MAX_RETRIES)` run. -/
def sh_run (execs : Nat → SubprocOutcome) : SHOutcome × Nat :=
  sh_loop execs 0 SH_MAX_RETRIES

/-! ## The `agno_pipeline.main` generation loop (lines 185–268)

`for attempt in range(max_retries)`: call the coder, parse; on parse
failure retry (or `sys.exit(1)` on the last attempt); on parse success
write the file, validate (one sandbox-executor invocation), break on
success, retry with feedback (or give up) on failure.  Two oracle
streams model the external world: whether attempt `k`'s response parses
and the subprocess outcome of attempt `k`'s validation. -/

/-- `max_retries` of `agno_pipeline.main` (line 185). -/
def AGNO_MAX_RETRIES : Nat := 5

/-- Terminal states of the `agno_pipeline.main` loop. -/
inductive AgnoOutcome where
  | success
  | parseFailed
  | exhausted
deriving DecidableEq, Repr

/-- Embedding of the `agno_pipeline.main` loop body; `attempt` is the
loop index, `remaining` the iterations `range` still provides.  Returns
the outcome and the number of sandbox-executor (validation) invocations
performed. -/
def agno_loop (parseOk : Nat → Bool) (execs : Nat → SubprocOutcome) :
    Nat → Nat → AgnoOutcome × Nat
  | _, 0 => (.exhausted, 0)
  | attempt, remaining + 1 =>
    if !parseOk attempt then
      if attempt < AGNO_MAX_RETRIES - 1 then
        agno_loop parseOk execs (attempt + 1) remaining
      else (.parseFailed, 0)
    else
      if (validate_manim_code (execs attempt)).1 then (.success, 1)
      else if attempt < AGNO_MAX_RETRIES - 1 then
        let r := agno_loop parseOk execs (attempt + 1) remaining
        (r.1, r.2 + 1)
      else (.exhausted, 1)

/-- The whole `for attempt in range(max_retries)` run. -/
def agno_run (parseOk : Nat → Bool) (execs : Nat → SubprocOutcome) :
    AgnoOutcome × Nat :=
  agno_loop parseOk execs 0 AGNO_MAX_RETRIES

/-! ## The `codefixer.CodeFixCoordinator.start` loop (lines 105–128)

`while True`: run the file, break on success, otherwise fix and
overwrite — there is NO attempt ceiling.  The embedding observes the
loop through a fuel bound: `codefixer_loop runs k fuel` runs at most
`fuel` iterations starting at iteration number `k` and reports whether
the loop terminated within the window, together with the number of
runner invocations performed in the window. -/

def codefixer_loop (runs : Nat → SubprocOutcome) :
    Nat → Nat → Option Nat × Nat
  | _, 0 => (none, 0)
  | iteration, fuel + 1 =>
    if (ManimRunner_run (runs iteration)).success then (some iteration, 1)
    else
      let r := codefixer_loop runs (iteration + 1) fuel
      (r.1, r.2 + 1)

/-! ## Backoff delays

`dspy_manim_workflow1._retry_with_backoff` lines 233–267: on a
rate-limit signature, `delay = base_delay * (2 ** attempt) +
random.uniform(0, 1)`, raised to a provider-suggested delay parsed from
the error text when present.  `codefixer.FixAgent.fix_code` lines 80–94:
`wait_time = (attempt + 1) * 5` on a 503/UNAVAILABLE signature.
Delays are real-valued in the source (floats); modelled over `ℚ`. -/

/-- Embedding of the delay computation of
`dspy_manim_workflow1._retry_with_backoff` (lines 247–255). -/
def backoff_delay (base : ℚ) (attempt : Nat) (jitter : ℚ)
    (suggested : Option ℚ) : ℚ :=
  let d := base * 2 ^ attempt + jitter
  match suggested with
  | some s => max d s
  | none => d

/-- Embedding of the wait computation of `codefixer.FixAgent.fix_code`
(line 86). -/
def fixagent_wait (attempt : Nat) : Nat :=
  (attempt + 1) * 5

/-! ## `render_manim.render_manim_video` error handling (lines 88–137)

`subprocess.run(..., check=True)` raises `CalledProcessError` on a
nonzero exit code; the handlers call `sys.exit(1)` for
`CalledProcessError`, `FileNotFoundError` (tool missing) and any other
exception.  There is no retry loop in this entry point. -/

/-- What `render_manim_video` does with the subprocess outcome. -/
inductive RenderResult where
  | rendered
  | fatalExit (code : Int)
deriving DecidableEq, Repr

/-- Embedding of the `try`/`except` dispatch of
`render_manim.render_manim_video` (lines 88–137). -/
def render_manim_handle (out : SubprocOutcome) : RenderResult :=
  match out with
  | .completed rc _ _ => if rc = 0 then .rendered else .fatalExit 1
  | .timedOut => .fatalExit 1
  | .spawnFailure _ => .fatalExit 1

/-! ## Structured response recovery: `agno_agents.parse_manim_code`

Lines 170–247 of `src/agno_agents.py`: strip markdown fences, try a
strict JSON parse, and on `json.JSONDecodeError` fall back to manual
field extraction with regular expressions, unescaping the code payload
by four successive `str.replace` calls.  `None` models the exceptions
(`ValueError` / propagated errors) of the source. -/

/-- The `ManimCode` record (pydantic model, `src/agno_agents.py`
lines 31–34). -/
structure ManimCode where
  filename : List Char
  code : List Char
  explanation : List Char
deriving DecidableEq, Repr

/-- First index at which `needle` occurs in `hay` (model of Python
`str.find` for a substring). -/
def findSubIdx : List Char → List Char → Option Nat
  | [], needle => if needle = [] then some 0 else none
  | c :: t, needle =>
    if needle.isPrefixOf (c :: t) then some 0
    else (findSubIdx t needle).map (· + 1)

/-- Last index at which character `c` occurs (model of Python
`str.rfind` for a one-character needle). -/
def rfindIdx (s : List Char) (c : Char) : Option Nat :=
  (s.reverse.findIdx? (· = c)).map fun i => s.length - 1 - i

/-- Locate the literal `key` and consume the `\s*:\s*"` that the
extraction regexes require right after it, returning the text following
the opening quote of the field value (the regexes anchor on the first
occurrence of the key literal). -/
def afterKeyQuote (text key : List Char) : Option (List Char) :=
  match findSubIdx text key with
  | none => none
  | some i =>
    match (text.drop (i + key.length)).dropWhile isPyWS with
    | ':' :: rest =>
      match rest.dropWhile isPyWS with
      | '"' :: r => some r
      | _ => none
    | _ => none

/-- Greedy scan of a quoted field value for the patterns
`((?:[^"\\]|\\.)*)"` (code) and `([^"]*(?:\\.[^"]*)*)"` (explanation):
a backslash always consumes the following character, a bare quote
closes the value.  Returns the matched group (escapes kept) and the
text after the closing quote. -/
def scanFieldGroup : Nat → List Char → Option (List Char × List Char)
  | 0, _ => none
  | _ + 1, [] => none
  | _ + 1, '"' :: t => some ([], t)
  | _ + 1, ['\\'] => none
  | fuel + 1, '\\' :: c :: t =>
    (scanFieldGroup fuel t).map fun p => ('\\' :: c :: p.1, p.2)
  | fuel + 1, c :: t =>
    (scanFieldGroup fuel t).map fun p => (c :: p.1, p.2)

/-- The four `str.replace` calls of `src/agno_agents.py` lines 231 and
238, in the source's order: `\n`, `\t`, `\"`, `\\`. -/
def unescape_code (s : List Char) : List Char :=
  replaceSub
    (replaceSub
      (replaceSub
        (replaceSub s "\\n".toList "\n".toList)
        "\\t".toList "\t".toList)
      "\\\"".toList "\"".toList)
    "\\\\".toList "\\".toList

/-- Does the non-greedy fallback pattern's tail `",\s*"explanation"`
match at the head of `r`? -/
def fallbackTailHere (r : List Char) : Bool :=
  match r with
  | '"' :: ',' :: t => "\"explanation\"".toList.isPrefixOf (t.dropWhile isPyWS)
  | _ => false

/-- The non-greedy group of the fallback pattern
`"code"\s*:\s*"(.*?)",\s*"explanation"` applied after the opening
quote: the shortest prefix of `s` whose following text matches the
tail. -/
def fallbackGroup (s : List Char) : Option (List Char) :=
  ((List.range (s.length + 1)).find? fun i => fallbackTailHere (s.drop i)).map
    fun i => s.take i

/-- JSON whitespace accepted between tokens by `json.loads`. -/
def isJsonWS (c : Char) : Bool :=
  c = ' ' || c = '\t' || c = '\n' || c = '\r'

/-- Decode one JSON string escape; `none` rejects the input as
`json.loads` does on an invalid `\` escape. -/
def jsonEscChar : Char → Option Char
  | '"' => some '"'
  | '\\' => some '\\'
  | '/' => some '/'
  | 'b' => some '\x08'
  | 'f' => some '\x0c'
  | 'n' => some '\n'
  | 'r' => some '\r'
  | 't' => some '\t'
  | _ => none

/-- Hex digit value, for `\uXXXX` escapes. -/
def hexVal (c : Char) : Option Nat :=
  if '0' ≤ c ∧ c ≤ '9' then some (c.toNat - '0'.toNat)
  else if 'a' ≤ c ∧ c ≤ 'f' then some (c.toNat - 'a'.toNat + 10)
  else if 'A' ≤ c ∧ c ≤ 'F' then some (c.toNat - 'A'.toNat + 10)
  else none

/-- Modelled from the Python standard library (`json.loads`, external to
this repository): the body of a JSON string literal after its opening
quote.  Rejects raw control characters and invalid escapes, decodes the
standard escapes, returns the decoded string and the text after the
closing quote. -/
def jsonStringBody : Nat → List Char → Option (List Char × List Char)
  | 0, _ => none
  | _ + 1, [] => none
  | _ + 1, '"' :: t => some ([], t)
  | fuel + 1, '\\' :: 'u' :: h1 :: h2 :: h3 :: h4 :: t =>
    match hexVal h1, hexVal h2, hexVal h3, hexVal h4 with
    | some a, some b, some c, some d =>
      let n := ((a * 16 + b) * 16 + c) * 16 + d
      (jsonStringBody fuel t).map fun p =>
        ((Char.ofNat n) :: p.1, p.2)
    | _, _, _, _ => none
  | fuel + 1, '\\' :: e :: t =>
    match jsonEscChar e with
    | some d => (jsonStringBody fuel t).map fun p => (d :: p.1, p.2)
    | none => none
  | fuel + 1, c :: t =>
    if c.toNat < 32 then none
    else (jsonStringBody fuel t).map fun p => (c :: p.1, p.2)

/-- Modelled from the Python standard library (`json.loads`, external to
this repository), restricted to the flat objects with string values
that this code path exchanges: the member list of a JSON object after
its opening brace. -/
def jsonMembers : Nat → List Char → Option (List (List Char × List Char) × List Char)
  | 0, _ => none
  | fuel + 1, s =>
    match s.dropWhile isJsonWS with
    | '}' :: t => some ([], t)
    | '"' :: r =>
      match jsonStringBody r.length r with
      | none => none
      | some (key, afterKey) =>
        match afterKey.dropWhile isJsonWS with
        | ':' :: afterColon =>
          match afterColon.dropWhile isJsonWS with
          | '"' :: v =>
            match jsonStringBody v.length v with
            | none => none
            | some (value, afterVal) =>
              match afterVal.dropWhile isJsonWS with
              | ',' :: more =>
                (jsonMembers fuel more).map fun p => ((key, value) :: p.1, p.2)
              | '}' :: t => some ([(key, value)], t)
              | _ => none
          | _ => none
        | _ => none
    | _ => none

/-- Modelled from the Python standard library and pydantic (external to
this repository): `json.loads(text)` followed by `ManimCode(**data)`,
for the flat string-field objects this code path exchanges.  `none`
covers both a `json.JSONDecodeError` (which the source catches, moving
to manual extraction) and the strict-parse subtleties outside this
shape. -/
def json_loads_manim (text : List Char) : Option ManimCode :=
  match text.dropWhile isJsonWS with
  | '{' :: r =>
    match jsonMembers r.length r with
    | some (members, rest) =>
      if rest.dropWhile isJsonWS = [] then
        match members.lookup "filename".toList, members.lookup "code".toList,
            members.lookup "explanation".toList with
        | some f, some c, some e => some ⟨f, c, e⟩
        | _, _, _ => none
      else none
    | none => none
  | _ => none

/-- Is `text` accepted by the strict parse (i.e. no
`json.JSONDecodeError`)? -/
def json_accepts (text : List Char) : Bool :=
  match text.dropWhile isJsonWS with
  | '{' :: r =>
    match jsonMembers r.length r with
    | some (_, rest) => rest.dropWhile isJsonWS = []
    | none => false
  | _ => false

/-- The fence stripping of `parse_manim_code` (lines 175–184): strip,
drop a leading ```` ```json ```` or ```` ``` ````, drop a trailing
```` ``` ````, strip again. -/
def strip_fences (input : List Char) : List Char :=
  let text := pstrip input
  let text := if "```json".toList.isPrefixOf text then text.drop 7 else text
  let text := if "```".toList.isPrefixOf text then text.drop 3 else text
  let text := if "```".toList.isSuffixOf text then text.take (text.length - 3)
              else text
  pstrip text

/-- The manual-extraction branch of `parse_manim_code`
(lines 190–247), entered when the strict parse fails. -/
def manual_extract (text : List Char) : Option ManimCode :=
  let filename :=
    match afterKeyQuote text "\"filename\"".toList with
    | some r =>
      let v := r.takeWhile (· ≠ '"')
      if v ≠ [] ∧ (r.drop v.length).head? = some '"' then v
      else "generated.py".toList
    | none => "generated.py".toList
  let explanation :=
    match afterKeyQuote text "\"explanation\"".toList with
    | some r =>
      match scanFieldGroup r.length r with
      | some (g, _) => g
      | none => "Generated Manim code".toList
    | none => "Generated Manim code".toList
  match findSubIdx text ['{'], rfindIdx text '}' with
  | some jsonStart, some jsonEnd =>
    let jsonText := (text.drop jsonStart).take (jsonEnd + 1 - jsonStart)
    let primary :=
      match afterKeyQuote jsonText "\"code\"".toList with
      | some r => (scanFieldGroup r.length r).map fun p => p.1
      | none => none
    let group :=
      match primary with
      | some g => some g
      | none =>
        match afterKeyQuote jsonText "\"code\"".toList with
        | some r => fallbackGroup r
        | none => none
    match group with
    | some g => some ⟨filename, unescape_code g, explanation⟩
    | none => none
  | _, _ => none

/-- Embedding of `agno_agents.parse_manim_code` (lines 170–247). -/
def parse_manim_code (input : List Char) : Option ManimCode :=
  let text := strip_fences input
  if json_accepts text then json_loads_manim text
  else manual_extract text

/-- A malformed response record: leading prose makes the strict JSON
parse fail, and the `code` field carries the escaped text
`line1\nline2\"quoted\"`. -/
def sample_malformed_record : List Char :=
  "Response:\n\x7b\"filename\": \"scene.py\", \"code\": \"line1\\nline2\\\"quoted\\\"\", \"explanation\": \"demo\"\x7d".toList

/-!
# Theorems
-/

/-- The invocation count of the `selfhealingcode` loop is bounded by the
remaining iteration budget. -/
theorem sh_loop_count_le (execs : Nat → SubprocOutcome) :
    ∀ f k, (sh_loop execs k f).2 ≤ f := by
  intro f
  induction f with
  | zero => intro k; simp [sh_loop]
  | succ n ih =>
    intro k
    simp only [sh_loop]
    split
    · exact Nat.succ_le_succ (Nat.zero_le n)
    · exact Nat.succ_le_succ (ih (k + 1))

/-- The validation-invocation count of the `agno_pipeline.main` loop is
bounded by the remaining iteration budget. -/
theorem agno_loop_count_le (parseOk : Nat → Bool) (execs : Nat → SubprocOutcome) :
    ∀ f k, (agno_loop parseOk execs k f).2 ≤ f := by
  intro f
  induction f with
  | zero => intro k; simp [agno_loop]
  | succ n ih =>
    intro k
    simp only [agno_loop]
    split
    · split
      · exact Nat.le_succ_of_le (ih (k + 1))
      · exact Nat.zero_le _
    · split
      · exact Nat.succ_le_succ (Nat.zero_le n)
      · split
        · exact Nat.succ_le_succ (ih (k + 1))
        · exact Nat.succ_le_succ (Nat.zero_le n)

/-- C1 (counterexample).  The `codefixer.CodeFixCoordinator.start` loop
variant is `while True` with no attempt ceiling: when every run fails
(here: every run times out) it performs 11 Sandbox Executor invocations
within the first 11 iterations — more than both configured ceilings
found in the repository (`max_retries = 5`, `MAX_RETRIES = 10`) — and
has not terminated. -/
theorem codefixer_loop_exceeds_ceilings :
    (codefixer_loop (fun _ => .timedOut) 1 11).1 = none ∧
    (codefixer_loop (fun _ => .timedOut) 1 11).2 = 11 ∧
    ¬ (codefixer_loop (fun _ => .timedOut) 1 11).2 ≤ SH_MAX_RETRIES ∧
    ¬ (codefixer_loop (fun _ => .timedOut) 1 11).2 ≤ AGNO_MAX_RETRIES := by
  refine ⟨rfl, rfl, ?_, ?_⟩ <;> decide

/-- C1 (amended).  The two bounded Correction Controller variants
terminate within their configured ceilings for every input: the
`selfhealingcode` loop performs at most `MAX_RETRIES = 10` Sandbox
Executor invocations and the `agno_pipeline.main` loop at most
`max_retries = 5` validation invocations, whatever the oracle streams
produce.  (The `codefixer` variant has no ceiling.) -/
theorem bounded_loops_respect_ceilings (execs execs2 : Nat → SubprocOutcome)
    (parseOk : Nat → Bool) :
    (sh_run execs).2 ≤ SH_MAX_RETRIES ∧
    (agno_run parseOk execs2).2 ≤ AGNO_MAX_RETRIES := by
  exact ⟨sh_loop_count_le execs SH_MAX_RETRIES 0,
         agno_loop_count_le parseOk execs2 AGNO_MAX_RETRIES 0⟩

/-- C2.  Allow-list precedence: a stripped stderr line containing a
member of the configured benign substring list is excluded from the
filtered diagnostics even when it also contains a member of the error
indicator list — the benign check runs first and wins.  Instantiating
`benign` with `benign_selfhealing` or `benign_agno` gives both
classifiers of the source. -/
theorem benign_line_excluded (benign : List (List Char))
    (line stderrText : List Char)
    (hb : (benign.any fun w => strContains line w) = true)
    (hi : (error_indicators.any fun ind => strContains line ind) = true) :
    line ∉ filter_error_lines benign stderrText := by
  intro hmem
  unfold filter_error_lines at hmem
  have hp := (List.mem_filter.mp hmem).2
  simp [hb, hi] at hp

/-- C2 (witness): the line `INFO     Animation ValueError` contains the
benign substring `INFO     Animation` and the error indicator
`ValueError`, and is excluded from the selfhealing classifier's
diagnostics. -/
theorem benign_line_excluded_witness :
    ((benign_selfhealing.any fun w =>
        strContains "INFO     Animation ValueError".toList w) = true) ∧
    ((error_indicators.any fun ind =>
        strContains "INFO     Animation ValueError".toList ind) = true) ∧
    "INFO     Animation ValueError".toList ∉
      filter_error_lines benign_selfhealing
        "INFO     Animation ValueError\nok".toList :=
  ⟨by decide, by decide,
   benign_line_excluded benign_selfhealing _ _ (by decide) (by decide)⟩

/-- C3 (counterexample).  The `selfhealingcode` classifier has no tail
fallback: a completed run with exit code 1, non-empty stderr and an
empty filtered diagnostic set is returned with empty `errors` — the
failure is reported with empty diagnostics. -/
theorem sh_no_tail_fallback :
    (run_code_and_get_logs
      (.completed 1 [] "scene went wrong somehow".toList)).errors = [] ∧
    (run_code_and_get_logs
      (.completed 1 [] "scene went wrong somehow".toList)).return_code = some 1 ∧
    (run_code_and_get_logs
      (.completed 1 [] "scene went wrong somehow".toList)).stderr ≠ [] := by
  refine ⟨by decide, by decide, by decide⟩

/-- C3 (amended).  In `agno_pipeline.validate_manim_code`, a completed
run with nonzero exit code, empty-after-filtering diagnostics and
non-empty stderr yields exactly the single synthesized error message
`stderr[-500:]` — a fixed-size tail window of stderr — and that message
is non-empty, so the failure is not reported with empty diagnostics.
(The `selfhealingcode` classifier lacks this fallback.) -/
theorem validate_tail_fallback (rc : Int) (stdout stderr : List Char)
    (hrc : rc ≠ 0) (hfil : filter_error_lines benign_agno stderr = [])
    (hne : stderr ≠ []) :
    validate_manim_code (.completed rc stdout stderr) =
      (false, lastChars 500 stderr) ∧ lastChars 500 stderr ≠ [] := by
  constructor
  · simp only [validate_manim_code, hfil]
    rw [if_neg hrc]
    simp [joinNL, pstrip, List.intercalate]
  · intro h
    have hle : stderr.length ≤ stderr.length - 500 := by
      simpa [lastChars] using h
    have hpos : 0 < stderr.length := List.length_pos.mpr hne
    omega

/-- C3 (witness): exit code 1 with stderr `boom` (matching no indicator)
synthesizes the tail `boom`. -/
theorem validate_tail_fallback_witness :
    ((1 : Int) ≠ 0) ∧
    filter_error_lines benign_agno "boom".toList = [] ∧
    "boom".toList ≠ [] ∧
    (validate_manim_code (.completed 1 [] "boom".toList) =
      (false, lastChars 500 "boom".toList) ∧
     lastChars 500 "boom".toList ≠ []) :=
  ⟨by decide, by decide, by decide,
   validate_tail_fallback 1 [] "boom".toList (by decide) (by decide) (by decide)⟩

/-- C4 (counterexample).  When the child process is killed on timeout,
`selfhealingcode.run_code_and_get_logs` records the numeric exit code 1
(`return_code` is not absent), contradicting the claim that no numeric
exit code is recorded on timeout. -/
theorem timeout_records_numeric_exit_code :
    (run_code_and_get_logs .timedOut).return_code = some 1 ∧
    (run_code_and_get_logs .timedOut).return_code ≠ none := by
  exact ⟨rfl, by decide⟩

/-- C4 (amended).  A real exit code is recorded exactly when the process
completed: `run_code_and_get_logs` copies the process exit code on
completion and substitutes the synthetic code 1 together with a fixed
timeout message on timeout (there is no `timedOut` flag and no absent
exit code); `codefixer.ManimRunner.run` records no exit code at all on
timeout, only `success = false` with a fixed message. -/
theorem timeout_result_shape (rc : Int) (stdout stderr : List Char) :
    (run_code_and_get_logs (.completed rc stdout stderr)).return_code = some rc ∧
    (run_code_and_get_logs .timedOut).return_code = some 1 ∧
    (run_code_and_get_logs .timedOut).stderr = sh_timeout_msg ∧
    (run_code_and_get_logs .timedOut).errors = sh_timeout_msg ∧
    ManimRunner_run .timedOut =
      { success := false, logs := "Execution timed out.".toList } :=
  ⟨rfl, rfl, rfl, rfl, rfl⟩

/-- C5 (counterexample).  The `selfhealingcode` correction request
interpolates the WHOLE result dictionary: after a failed attempt whose
raw stderr differs from the filtered diagnostic text, the request still
carries the raw unfiltered `stdout` and `stderr` streams. -/
theorem sh_request_carries_raw_streams :
    (sh_correction_request "print(1)".toList
      (run_code_and_get_logs
        (.completed 1 "noise out".toList
          "debug noise\nValueError: bad".toList))).logs.stderr =
      "debug noise\nValueError: bad".toList ∧
    (sh_correction_request "print(1)".toList
      (run_code_and_get_logs
        (.completed 1 "noise out".toList
          "debug noise\nValueError: bad".toList))).logs.stdout =
      "noise out".toList ∧
    (sh_correction_request "print(1)".toList
      (run_code_and_get_logs
        (.completed 1 "noise out".toList
          "debug noise\nValueError: bad".toList))).logs.errors ≠
      "debug noise\nValueError: bad".toList := by
  refine ⟨by decide, by decide, by decide⟩

/-- C5 (amended).  The `agno_pipeline.main` correction request carries
the full prior candidate code and the diagnostic text truncated to at
most 1000 characters; the `selfhealingcode` variant instead interpolates
the whole result dictionary, raw streams included. -/
theorem agno_request_bounded (code errorMsg : List Char) :
    (agno_correction_request code errorMsg).prior_code = code ∧
    (agno_correction_request code errorMsg).error_excerpt = errorMsg.take 1000 ∧
    (agno_correction_request code errorMsg).error_excerpt.length ≤ 1000 := by
  refine ⟨rfl, rfl, ?_⟩
  simp [agno_correction_request]

/-- C6.  Structured Response Recovery round-trip: on a record that fails
the strict parse and whose `code` field holds the escaped text
`line1\nline2\"quoted\"`, `parse_manim_code` returns the artifact whose
payload is the two lines `line1` and `line2"quoted"` — newline and
quotes unescaped by the fixed substitution order of `unescape_code`. -/
theorem recovery_round_trip :
    json_accepts (strip_fences sample_malformed_record) = false ∧
    parse_manim_code sample_malformed_record =
      some ⟨"scene.py".toList, "line1\nline2\"quoted\"".toList,
            "demo".toList⟩ := by
  exact ⟨rfl, rfl⟩

/-- C7 (counterexample).  The computed backoff delays are NOT
non-decreasing for every sequence of suggested delays: a
provider-suggested delay of 100 on attempt 0 exceeds the computed delay
of attempt 1 (base 1, zero jitter). -/
theorem backoff_not_monotone_with_suggested :
    ¬ backoff_delay 1 0 0 (some 100) ≤ backoff_delay 1 1 0 none := by
  norm_num [backoff_delay]

/-- C7 (amended).  Without a provider-suggested delay the computed
delays `base * 2^attempt + jitter` strictly increase from one transient
failure to the next, for every jitter in `[0, 1)` and every base at
least 1; a suggested delay only ever raises the delay of its own
attempt (`max`), and the `codefixer.FixAgent` linear waits
`(attempt + 1) * 5` strictly increase as well. -/
theorem backoff_monotone_without_suggested (base j j2 s : ℚ) (a : Nat)
    (hbase : 1 ≤ base) (_hj0 : 0 ≤ j) (hj1 : j < 1) (hj2 : 0 ≤ j2) :
    backoff_delay base a j none < backoff_delay base (a + 1) j2 none ∧
    s ≤ backoff_delay base a j (some s) ∧
    fixagent_wait a < fixagent_wait (a + 1) := by
  refine ⟨?_, le_max_right _ _, by simp [fixagent_wait]⟩
  have hp : (1 : ℚ) ≤ 2 ^ a := one_le_pow₀ (by norm_num)
  have hkey : (1 : ℚ) ≤ base * 2 ^ a := by nlinarith
  simp only [backoff_delay, pow_succ]
  nlinarith

/-- C7 (witness): base 1, jitter 1/2 then 0, attempt 0 → delay 3/2 on
attempt 0, delay 2 on attempt 1. -/
theorem backoff_monotone_witness :
    ((1 : ℚ) ≤ 1 ∧ (0 : ℚ) ≤ 1/2 ∧ (1/2 : ℚ) < 1 ∧ (0 : ℚ) ≤ 0) ∧
    (backoff_delay 1 0 (1/2) none < backoff_delay 1 (0 + 1) 0 none ∧
     (7 : ℚ) ≤ backoff_delay 1 0 (1/2) (some 7) ∧
     fixagent_wait 0 < fixagent_wait (0 + 1)) :=
  ⟨by norm_num,
   backoff_monotone_without_suggested 1 (1/2) 0 7 0
     (by norm_num) (by norm_num) (by norm_num) (by norm_num)⟩

/-- C8 (counterexample).  A missing execution tool surfaces as a spawn
failure that the `selfhealingcode` loop treats as an ordinary failed
attempt: the loop body decides to issue a CorrectionRequest for it, and
with the tool permanently absent all 10 attempts are consumed instead of
the loop aborting immediately. -/
theorem tool_missing_consumed_as_attempt :
    sh_decision (run_code_and_get_logs
      (.spawnFailure "No such file or directory: manim".toList)) = .correct ∧
    sh_run (fun _ => .spawnFailure "No such file or directory: manim".toList) =
      (.exhausted, 10) := by
  refine ⟨by decide, by decide⟩

/-- C8 (amended).  Only the loop-free entry point
`render_manim.render_manim_video` aborts immediately (`sys.exit(1)`) on
a spawn failure such as a missing `manim` tool; the correction-loop
runners catch the exception and convert it into an ordinary failed
result (`return_code = 1` / `success = false`), which the
`selfhealingcode` loop answers with a CorrectionRequest rather than an
abort. -/
theorem tool_missing_handling (m : List Char) :
    render_manim_handle (.spawnFailure m) = .fatalExit 1 ∧
    (ManimRunner_run (.spawnFailure m)).success = false ∧
    (run_code_and_get_logs (.spawnFailure m)).return_code = some 1 ∧
    sh_decision (run_code_and_get_logs (.spawnFailure m)) = .correct := by
  refine ⟨rfl, rfl, rfl, ?_⟩
  simp [sh_decision, sh_success, run_code_and_get_logs]

/-- C9.  The diagnostic classifiers are deterministic pure functions of
the execution result: two completed results with the same exit code,
stdout and stderr are classified identically, diagnostic order
included. -/
theorem classifier_deterministic (rc1 rc2 : Int)
    (out1 out2 err1 err2 : List Char)
    (hrc : rc1 = rc2) (hout : out1 = out2) (herr : err1 = err2) :
    run_code_and_get_logs (.completed rc1 out1 err1) =
      run_code_and_get_logs (.completed rc2 out2 err2) ∧
    validate_manim_code (.completed rc1 out1 err1) =
      validate_manim_code (.completed rc2 out2 err2) ∧
    filter_error_lines benign_selfhealing err1 =
      filter_error_lines benign_selfhealing err2 := by
  subst hrc; subst hout; subst herr
  exact ⟨rfl, rfl, rfl⟩

/-- C9 (witness): classifying the same concrete failing result twice
yields identical outputs. -/
theorem classifier_deterministic_witness :
    run_code_and_get_logs (.completed 1 "o".toList "ValueError: x".toList) =
      run_code_and_get_logs (.completed 1 "o".toList "ValueError: x".toList) ∧
    validate_manim_code (.completed 1 "o".toList "ValueError: x".toList) =
      validate_manim_code (.completed 1 "o".toList "ValueError: x".toList) ∧
    filter_error_lines benign_selfhealing "ValueError: x".toList =
      filter_error_lines benign_selfhealing "ValueError: x".toList :=
  classifier_deterministic 1 1 "o".toList "o".toList
    "ValueError: x".toList "ValueError: x".toList rfl rfl rfl

/-- C10.  The sandbox runners are total at their interface: every
outcome — completion, timeout expiry, spawn failure — is mapped to a
fully populated result record (the embeddings are total functions, no
exceptional path escapes).  The success indication is faithful: the
recorded exit code is the process's code exactly on completion and the
synthetic 1 otherwise, and `ManimRunner.run` reports `success = true`
precisely for a completed process with exit code 0; the text fields of
the failure branches are derived from the caught message. -/
theorem runners_total (out : SubprocOutcome) (rc : Int)
    (stdout stderr m : List Char) :
    (run_code_and_get_logs out).return_code ≠ none ∧
    (run_code_and_get_logs (.completed rc stdout stderr)).return_code = some rc ∧
    (run_code_and_get_logs (.completed rc stdout stderr)).stdout = stdout ∧
    (run_code_and_get_logs (.completed rc stdout stderr)).stderr = stderr ∧
    (run_code_and_get_logs (.spawnFailure m)).stderr = m ∧
    (run_code_and_get_logs (.spawnFailure m)).errors = m ∧
    ((ManimRunner_run (.completed rc stdout stderr)).success = true ↔ rc = 0) ∧
    (ManimRunner_run .timedOut).success = false ∧
    (ManimRunner_run (.spawnFailure m)).logs = m := by
  refine ⟨?_, rfl, rfl, rfl, rfl, rfl, ?_, rfl, rfl⟩
  · cases out <;> simp [run_code_and_get_logs]
  · constructor
    · intro h
      by_contra hrc
      simp [ManimRunner_run, hrc] at h
    · intro h
      simp [ManimRunner_run, h]

end VATA
